import Mathlib

/-!
Verification of the CANSLIM analyzer/screener (canslim_analyzer.py,
market_screener.py) against its natural-language specification.

The embedding works over exact rationals: every price, return and score is a
rational number, pandas/NumPy NaN results are modelled as `none` of an
`Option`, and `np.inf` (which only arises for `strength_ratio`) is modelled as
the `none` case of the `Option` returned by `strengthRatioQ`.  A price series
is a chronologically ascending list of (date, value) pairs with distinct
dates; date indices are natural numbers.
-/

namespace Canslim

/-- A time-indexed series of rational values: (date, value) pairs,
chronologically ascending, dates distinct.  Models a pandas Series. -/
abbrev Series := List (Nat × ℚ)

/-- Arithmetic mean of a list, `np.mean`; division by zero (empty list) gives
0 under the rational convention (every use below is guarded by the same
emptiness checks as the source). -/
def meanQ (l : List ℚ) : ℚ := l.sum / l.length

/-- `series.iloc[-1]` for a nonempty list (0 on the empty list). -/
def lastD (l : List ℚ) : ℚ := l.getLast?.getD 0

/-- `series.iloc[-k]`: the element at position `length - k`.  Every use below
is guarded so that `k ≤ length`. -/
def atFromEnd (l : List ℚ) (k : Nat) : ℚ := (l.get? (l.length - k)).getD 0

/-- `series.tail(n)` / `array[-n:]`: the last `n` elements (the whole list
when it is shorter than `n`). -/
def lastN (n : Nat) (l : List ℚ) : List ℚ := l.drop (l.length - n)

/-- `series.pct_change().dropna()`: consecutive percentage changes
`x_i / x_(i-1) - 1`, one per element from the second on. -/
def pctChange (l : List ℚ) : List ℚ :=
  (List.zip (l.drop 1) l).map (fun p => p.1 / p.2 - 1)

/-- `pct_change().dropna()` on a date-indexed series: each change keeps the
date of its later row, the first row is dropped. -/
def pctChangeSeries (s : Series) : Series :=
  (List.zip (s.drop 1) s).map (fun p => (p.1.1, p.1.2 / p.2.2 - 1))

/-- `stock.index.intersection(market.index)`: the dates of `s` that also occur
in `m`, in the (ascending) order of `s`. -/
def commonDates (s m : Series) : List Nat :=
  (s.map Prod.fst).filter (fun d => (m.map Prod.fst).contains d)

/-- Value of a series at a date (first matching row; 0 if the date is absent,
which the callers below never rely on). -/
def seriesAt (s : Series) (d : Nat) : ℚ :=
  ((s.filter (fun p => p.1 == d)).head?.map Prod.snd).getD 0

/-- `series[common_dates]`: the values of `s` at the given dates. -/
def reindex (s : Series) (ds : List Nat) : List ℚ := ds.map (seriesAt s)

/-- `_calculate_relative_strength` (canslim_analyzer.py, lines 194-237):
returns the pair (3-month, 6-month) of relative strengths, `none` modelling
`np.nan`.  The source first requires at least 180 common dates (`if
len(common_dates) < 180: return {"3m": np.nan, "6m": np.nan}`), then checks
63 / 126 sessions for the two horizons. -/
def relativeStrength (stock market : Series) : Option ℚ × Option ℚ :=
  let cd := commonDates stock market
  if cd.length < 180 then (none, none)
  else
    let sc := reindex stock cd
    let mc := reindex market cd
    let endS := lastD sc
    let endM := lastD mc
    let rs3 :=
      if 63 ≤ sc.length then
        some ((endS / atFromEnd sc 63 - 1) * 100 - (endM / atFromEnd mc 63 - 1) * 100)
      else none
    let rs6 :=
      if 126 ≤ sc.length then
        some ((endS / atFromEnd sc 126 - 1) * 100 - (endM / atFromEnd mc 126 - 1) * 100)
      else none
    (rs3, rs6)

/-- `np.var(l)` with the NumPy default `ddof=0`: population variance,
normalised by `n`. -/
def varPop (l : List ℚ) : ℚ :=
  (l.map (fun x => (x - meanQ l) ^ 2)).sum / l.length

/-- `np.cov(xs, ys)[0][1]` with the NumPy default `ddof=1`: sample covariance,
normalised by `n - 1`. -/
def covSample (xs ys : List ℚ) : ℚ :=
  (List.zipWith (fun x y => (x - meanQ xs) * (y - meanQ ys)) xs ys).sum /
    ((xs.length : ℚ) - 1)

/-- Covariance normalised by `n` (population convention), used to compare the
two normalisations. -/
def covPop (xs ys : List ℚ) : ℚ :=
  (List.zipWith (fun x y => (x - meanQ xs) * (y - meanQ ys)) xs ys).sum /
    (xs.length : ℚ)

/-- The common return dates used by `_calculate_beta`. -/
def betaCommonDates (stock market : Series) : List Nat :=
  commonDates (pctChangeSeries stock) (pctChangeSeries market)

/-- The stock daily returns restricted to the common dates, as in
`_calculate_beta`. -/
def betaStockAligned (stock market : Series) : List ℚ :=
  reindex (pctChangeSeries stock) (betaCommonDates stock market)

/-- The market daily returns restricted to the common dates, as in
`_calculate_beta`. -/
def betaMarketAligned (stock market : Series) : List ℚ :=
  reindex (pctChangeSeries market) (betaCommonDates stock market)

/-- `_calculate_beta` (canslim_analyzer.py, lines 171-192): daily returns on
both series, intersected by date; fewer than 30 common sessions gives NaN
(`none`); beta is `np.cov(...)[0][1] / np.var(market_returns)` — note the
source divides the ddof=1 covariance by the ddof=0 variance — and NaN when
the market variance is zero. -/
def calcBeta (stock market : Series) : Option ℚ :=
  let cd := betaCommonDates stock market
  if cd.length < 30 then none
  else
    let m := betaMarketAligned stock market
    if varPop m = 0 then none
    else some (covSample (betaStockAligned stock market) m / varPop m)

/-- Modelled from the spec: beta with covariance and variance taken under the
same definition (both population moments, the ratio being the same for any
common ddof), for comparison with `calcBeta`. -/
def betaSameDdof (stock market : Series) : Option ℚ :=
  let cd := betaCommonDates stock market
  if cd.length < 30 then none
  else
    let m := betaMarketAligned stock market
    if varPop m = 0 then none
    else some (covPop (betaStockAligned stock market) m / varPop m)

/-- One symbol's OHLCV history, reduced to the two columns the analyzed
criteria read. -/
structure PriceData where
  close : List ℚ
  high : List ℚ
deriving DecidableEq

/-- `series.rolling(window=w).max().iloc[-1]` with the pandas default
`min_periods = window`: the maximum of the last `w` values when at least `w`
values exist, otherwise NaN (`none`). -/
def rollingMaxLast (w : Nat) (l : List ℚ) : Option ℚ :=
  if w ≤ l.length then
    match lastN w l with
    | [] => none
    | x :: xs => some (xs.foldl max x)
  else none

/-- `high_52w = data['High'].rolling(window=252).max().iloc[-1]`
(canslim_analyzer.py, line 77). -/
def high_52w (d : PriceData) : Option ℚ := rollingMaxLast 252 d.high

/-- `is_near_high = current_price >= high_52w * 0.95` (line 79); a NaN
`high_52w` makes the comparison False. -/
def is_near_high (d : PriceData) : Bool :=
  match high_52w d with
  | some h => decide (h * (95 / 100) ≤ lastD d.close)
  | none => false

/-- Modelled from the spec: the maximum High over the available trailing
window (at most 252 sessions), the behaviour the spec ascribes to the
52-week-high computation on short series; compared with `high_52w`. -/
def availableWindowHigh (d : PriceData) : Option ℚ :=
  match lastN (min 252 d.high.length) d.high with
  | [] => none
  | x :: xs => some (xs.foldl max x)

/-- `returns.tail(20)`: the trailing 20 daily returns used by
`_analyze_volatility` (canslim_analyzer.py, lines 328-353). -/
def recentReturns20 (close : List ℚ) : List ℚ := lastN 20 (pctChange close)

/-- `avg_up = recent_returns[recent_returns > 0].mean() if up_days > 0 else 0`
(line 342). -/
def avg_up (close : List ℚ) : ℚ :=
  let pos := (recentReturns20 close).filter (fun r => decide (0 < r))
  if pos.isEmpty then 0 else meanQ pos

/-- `avg_down = recent_returns[recent_returns < 0].mean() if down_days > 0
else 0` (line 343). -/
def avg_down (close : List ℚ) : ℚ :=
  let neg := (recentReturns20 close).filter (fun r => decide (r < 0))
  if neg.isEmpty then 0 else meanQ neg

/-- Round half to even to an integer (the rounding Python's `round` uses,
idealised over the rationals). -/
def roundHalfEven (x : ℚ) : ℤ :=
  if x - ⌊x⌋ < 1 / 2 then ⌊x⌋
  else if (1 : ℚ) / 2 < x - ⌊x⌋ then ⌊x⌋ + 1
  else if ⌊x⌋ % 2 = 0 then ⌊x⌋ else ⌊x⌋ + 1

/-- Python's `round(x, 2)` over the rationals. -/
def round2 (x : ℚ) : ℚ := ((roundHalfEven (x * 100) : ℤ) : ℚ) / 100

/-- `strength_ratio` (canslim_analyzer.py, line 350):
`round(abs(avg_up / avg_down), 2) if avg_down != 0 else np.inf`.
`none` models `np.inf`. -/
def strengthRatioQ (close : List ℚ) : Option ℚ :=
  if avg_down close ≠ 0 then some (round2 |avg_up close / avg_down close|)
  else none

/-- One step stream of `pandas.ewm(span).mean()` with the default
`adjust=True`: `num_t = x_t + (1-a)·num_(t-1)`, `den_t = 1 + (1-a)·den_(t-1)`,
output `num_t / den_t`. -/
def ewmAdjustGo (a : ℚ) (num den : ℚ) : List ℚ → List ℚ
  | [] => []
  | x :: rest =>
    let num2 := x + (1 - a) * num
    let den2 := 1 + (1 - a) * den
    (num2 / den2) :: ewmAdjustGo a num2 den2 rest

/-- `data.ewm(span).mean()` with `adjust=True` (the pandas default), as used
by `_calculate_ema` (canslim_analyzer.py, line 261). -/
def ewmAdjust (a : ℚ) (xs : List ℚ) : List ℚ := ewmAdjustGo a 0 0 xs

/-- Exponential moving average for a span: `alpha = 2 / (span + 1)`. -/
def emaSpan (span : Nat) (xs : List ℚ) : List ℚ :=
  ewmAdjust (2 / ((span : ℚ) + 1)) xs

/-- `_calculate_macd_manual` (canslim_analyzer.py, lines 263-286) with the
default periods 12/26/9: `none` when fewer than `26 + 9` closes exist,
otherwise the (macd line, signal line, histogram) triple. -/
def macdManual (close : List ℚ) : Option (List ℚ × List ℚ × List ℚ) :=
  if close.length < 26 + 9 then none
  else
    let fast := emaSpan 12 close
    let slow := emaSpan 26 close
    let macdLine := List.zipWith (· - ·) fast slow
    let signal := emaSpan 9 macdLine
    let hist := List.zipWith (· - ·) macdLine signal
    some (macdLine, signal, hist)

/-- The downward-reversal detection of `_analyze_macd` (canslim_analyzer.py,
lines 309-315): on the last 3 histogram values, flag when the histogram flips
from positive to negative or keeps falling below zero. -/
def downwardReversal (hist : List ℚ) : Bool :=
  let recent := if 3 ≤ hist.length then lastN 3 hist else hist
  if 2 ≤ recent.length then
    decide (0 < atFromEnd recent 2 ∧ atFromEnd recent 1 < 0) ||
      decide (atFromEnd recent 1 < atFromEnd recent 2 ∧ atFromEnd recent 2 < 0)
  else false

/-- The fields of the `_analyze_macd` result that the claims read. -/
structure MacdResult where
  downward_reversal_signal : Bool
  sell_preparation_needed : Bool
deriving DecidableEq

/-- `_analyze_macd` (canslim_analyzer.py, lines 288-326) on the monthly close
series, using the manual MACD path: `none` models the `"error"` dictionaries
(fewer than 35 bars / failed computation). -/
def analyzeMacd (close : List ℚ) : Option MacdResult :=
  if close.length < 35 then none
  else
    match macdManual close with
    | none => none
    | some (_, _, hist) => some ⟨downwardReversal hist, downwardReversal hist⟩

/-- `(current_price / price_6m_ago - 1) * 100` guarded by
`len(data) >= 126`, as in the caution analyses. -/
def return_6m (d : PriceData) : Option ℚ :=
  if 126 ≤ d.close.length then
    some ((lastD d.close / atFromEnd d.close 126 - 1) * 100)
  else none

/-- `(current_price / price_3m_ago - 1) * 100` guarded by
`len(data) >= 63`. -/
def return_3m (d : PriceData) : Option ℚ :=
  if 63 ≤ d.close.length then
    some ((lastD d.close / atFromEnd d.close 63 - 1) * 100)
  else none

/-- `(current_price / price_1y_ago - 1) * 100` guarded by
`len(data) >= 252`. -/
def return_1y (d : PriceData) : Option ℚ :=
  if 252 ≤ d.close.length then
    some ((lastD d.close / atFromEnd d.close 252 - 1) * 100)
  else none

/-- Stable insertion into an ascending list (Python's stable `sorted` by
value). -/
def insertAsc (x : ℚ) : List ℚ → List ℚ
  | [] => [x]
  | y :: ys => if x ≤ y then x :: y :: ys else y :: insertAsc x ys

/-- Stable ascending sort by value, as `sorted(performance_6m.items(),
key=lambda x: x[1])` (only the values matter downstream). -/
def sortAsc : List ℚ → List ℚ
  | [] => []
  | x :: xs => insertAsc x (sortAsc xs)

/-- `_analyze_laggard_performance` (canslim_analyzer.py, lines 355-391),
reduced to its `warning_signal`: `none` models the `"error":
"insufficient_data"` dictionary returned when no symbol has 126 sessions;
otherwise the bottom quartile (at least one symbol) of 6-month returns is
averaged and compared with 50. -/
def laggardWarning (basket : List PriceData) : Option Bool :=
  let perf := basket.filterMap return_6m
  if perf.isEmpty then none
  else
    let sorted := sortAsc perf
    let q := perf.length / 4
    let k := if q = 0 then 1 else q
    some (decide (50 ≤ meanQ (sorted.take k)))

/-- `_analyze_pbr_levels` (canslim_analyzer.py, lines 393-424), reduced to its
`warning_signal`: among the symbols with at least 126 sessions, the fraction
trading at 90% or more of their (252-session rolling) 52-week high; a NaN
rolling high (fewer than 252 sessions) fails the 90% test but still counts in
the denominator. -/
def pbrWarning (basket : List PriceData) : Bool :=
  let eligible := basket.filter (fun d => decide (126 ≤ d.close.length))
  let hv := eligible.countP (fun d =>
    match rollingMaxLast 252 d.high with
    | some h => decide (9 / 10 ≤ lastD d.close / h)
    | none => false)
  let total := eligible.length
  let frac : ℚ := if 0 < total then (hv : ℚ) / total else 0
  decide (1 / 2 ≤ frac)

/-- `_analyze_leverage_risk` (canslim_analyzer.py, lines 426-453), reduced to
its `warning_signal`: any symbol with one year of data and a 1-year return of
at least 1000% triggers the warning. -/
def leverageWarning (basket : List PriceData) : Bool :=
  let extreme := basket.countP (fun d =>
    match return_1y d with
    | some r => decide (1000 ≤ r)
    | none => false)
  decide (0 < extreme)

/-- `_analyze_market_heat` (canslim_analyzer.py, lines 455-492), reduced to
its `warning_signal`: average 3-month return of the 126-session-eligible
symbols at least 30, or average 6-month return at least 50 (empty averages
are 0). -/
def marketHeatWarning (basket : List PriceData) : Bool :=
  let eligible := basket.filter (fun d => decide (126 ≤ d.close.length))
  let r3 := eligible.filterMap return_3m
  let r6 := eligible.filterMap return_6m
  let avg3 := if r3.isEmpty then 0 else meanQ r3
  let avg6 := if r6.isEmpty then 0 else meanQ r6
  decide (30 ≤ avg3) || decide (50 ≤ avg6)

/-- `signal_data.get("warning_signal", False)`: an error dictionary (`none`)
has no warning flag. -/
def warningFlag : Option Bool → Bool
  | none => false
  | some b => b

/-- The caution-analysis output fields the claims read
(`analyze_caution_criteria`, canslim_analyzer.py, lines 123-169). -/
structure CautionOutput where
  laggard_surge : Option Bool
  high_pbr : Bool
  leverage_risk : Bool
  market_heat : Bool
  caution_score : Nat
  high_caution : Bool
deriving DecidableEq

/-- `_calculate_caution_score` (canslim_analyzer.py, lines 535-546): one
point per signal dictionary whose `warning_signal` is true; the four signal
entries are exactly laggard_surge, high_pbr, leverage_risk, market_heat. -/
def calculateCautionScore (lag : Option Bool) (pbr lev heat : Bool) : Nat :=
  (if warningFlag lag then 1 else 0) + (if pbr then 1 else 0) +
    (if lev then 1 else 0) + (if heat then 1 else 0)

/-- `analyze_caution_criteria` (canslim_analyzer.py, lines 123-169) on the
basket of symbols with valid data: `none` models the `"error"` return for an
empty valid basket; `high_caution = caution_score >= 5` (line 167). -/
def analyzeCautionCriteria (basket : List PriceData) : Option CautionOutput :=
  if basket.isEmpty then none
  else
    let lag := laggardWarning basket
    let pbr := pbrWarning basket
    let lev := leverageWarning basket
    let heat := marketHeatWarning basket
    let score := calculateCautionScore lag pbr lev heat
    some ⟨lag, pbr, lev, heat, score, decide (5 ≤ score)⟩

/-- `_calculate_confidence` (canslim_analyzer.py, lines 630-636):
`max(0, min(100, leadership*15 - caution*10))`. -/
def calculateConfidence (leadership caution : Nat) : ℤ :=
  max 0 (min 100 ((leadership : ℤ) * 15 - (caution : ℤ) * 10))

/-- The `_generate_recommendation` output fields the claims read. -/
structure Recommendation where
  action : String
  leadership_score : Nat
  caution_score : Nat
  confidence : ℤ
deriving DecidableEq

/-- `_generate_recommendation` (canslim_analyzer.py, lines 590-628): the
threshold cascade on (leadership score, caution score), with the source's
action strings. -/
def generateRecommendation (l c : Nat) : Recommendation :=
  if 5 ≤ c then ⟨"매우 조심", l, c, calculateConfidence l c⟩
  else if 5 ≤ l then
    if 3 ≤ c then ⟨"조심스런 매수", l, c, calculateConfidence l c⟩
    else ⟨"적극 매수", l, c, calculateConfidence l c⟩
  else if 3 ≤ l then ⟨"조건부 매수", l, c, calculateConfidence l c⟩
  else ⟨"매수 보류", l, c, calculateConfidence l c⟩

/-- The `criteria` dictionary consumed by `_calculate_canslim_scores`
(market_screener.py, lines 64-133), reduced to the entries that function
reads.  Outer `Option`s model absent keys; `none` inside `marketPerf` models
a NaN `relative_strength_6m`; inside `volatility`, the middle `Option` is the
presence of the `strength_ratio` key (absent in an error dictionary) and the
inner `none` models `np.inf`; inside `macd`, `none` models an error
dictionary and `some sell` a result with `sell_preparation_needed = sell`. -/
structure Criteria where
  high52 : Option Bool
  marketPerf : Option (Option ℚ)
  movingAvg : Option (Bool × Bool)
  volatility : Option (Option (Option ℚ))
  macd : Option (Option Bool)

/-- The seven CANSLIM component scores. -/
structure CanslimScores where
  C : ℚ
  A : ℚ
  N : ℚ
  S : ℚ
  L : ℚ
  I : ℚ
  M : ℚ
deriving DecidableEq

/-- `_calculate_canslim_scores` (market_screener.py, lines 64-133): C = near
52-week high; A = 6-month relative strength positive; N = the constant 0.5
placeholder; S = above the 20-week MA and MA rising; L = 6-month relative
strength above 20; I = strength ratio at least 1.2 (`np.inf` passes);
M = MACD computed without error and no sell signal.  Missing keys and NaN
comparisons give 0 as in Python. -/
def calculateCanslimScores (cr : Criteria) : CanslimScores where
  C := match cr.high52 with
    | some b => if b then 1 else 0
    | none => 0
  A := match cr.marketPerf with
    | some (some r) => if 0 < r then 1 else 0
    | some none => 0
    | none => 0
  N := 1 / 2
  S := match cr.movingAvg with
    | some (above, rising) => if above && rising then 1 else 0
    | none => 0
  L := match cr.marketPerf with
    | some (some r) => if 20 < r then 1 else 0
    | some none => 0
    | none => 0
  I := match cr.volatility with
    | some (some (some v)) => if 12 / 10 ≤ v then 1 else 0
    | some (some none) => 1
    | some none => 0
    | none => 0
  M := match cr.macd with
    | some (some sell) => if sell then 0 else 1
    | some none => 0
    | none => 0

/-- `total_canslim_score = sum(canslim_scores.values())` (market_screener.py,
line 45). -/
def canslimTotal (cr : Criteria) : ℚ :=
  let s := calculateCanslimScores cr
  s.C + s.A + s.N + s.S + s.L + s.I + s.M

/-- `overall_score = (total_canslim_score / 7.0) * 100` (market_screener.py,
line 47), before the display rounding. -/
def overallScore (cr : Criteria) : ℚ := canslimTotal cr / 7 * 100

/-- A screening result as the batch ranker sees it: symbol plus overall
CANSLIM percentage. -/
structure RankedEntry where
  symbol : String
  overall_score : ℚ
deriving DecidableEq

/-- `analyze_stock_batch` (market_screener.py, lines 272-316): the worker
keeps a result only when `overall_score > 30`; `completed` is the list of
per-symbol results in the order the parallel workers complete (an arbitrary
permutation of the submitted basket). -/
def analyzeStockBatch (completed : List RankedEntry) : List RankedEntry :=
  completed.filter (fun e => decide (30 < e.overall_score))

/-- One step of the stable descending insertion equivalent to the stable
`list.sort(key=..., reverse=True)` of `run_market_specific_screening`
(market_screener.py, line 384): an element is placed before the first
element whose score is not larger, so earlier elements precede later ones on
equal scores. -/
def insertByScore (e : RankedEntry) : List RankedEntry → List RankedEntry
  | [] => [e]
  | x :: xs =>
    if x.overall_score ≤ e.overall_score then e :: x :: xs
    else x :: insertByScore e xs

/-- Stable sort by descending overall score (extensionally equal to Python's
stable Timsort with `reverse=True`). -/
def sortByScoreDesc : List RankedEntry → List RankedEntry
  | [] => []
  | x :: xs => insertByScore x (sortByScoreDesc xs)

/-- `run_market_specific_screening` (market_screener.py, lines 362-400),
reduced to its result list: filter the completed results by the score floor,
then sort by descending overall score. -/
def runScreening (completed : List RankedEntry) : List RankedEntry :=
  sortByScoreDesc (analyzeStockBatch completed)

/-- The key sequence of `{r['symbol']: r for r in l}`: symbols in order of
first appearance. -/
def dictKeys (l : List RankedEntry) : List String :=
  l.foldl (fun ks e => if ks.contains e.symbol then ks else ks ++ [e.symbol]) []

/-- The value of `{r['symbol']: r for r in l}[s]`: the last entry with that
symbol, `none` when the symbol is absent. -/
def dictGet (l : List RankedEntry) (s : String) : Option RankedEntry :=
  (l.filter (fun e => e.symbol == s)).getLast?

/-- One `score_changes` record of `detect_changes`. -/
structure ScoreChange where
  symbol : String
  old_score : ℚ
  new_score : ℚ
deriving DecidableEq

/-- The `new_entries` list of `detect_changes` (market_screener.py, lines
427-430): symbols of the new run absent from the previous run. -/
def newEntries (newResults prevResults : List RankedEntry) : List RankedEntry :=
  (dictKeys newResults).filterMap (fun s =>
    match dictGet prevResults s with
    | some _ => none
    | none => dictGet newResults s)

/-- The `score_changes` list of `detect_changes` (lines 432-446): symbols in
both runs whose overall score moved by at least 10 points. -/
def scoreChanges (newResults prevResults : List RankedEntry) : List ScoreChange :=
  (dictKeys newResults).filterMap (fun s =>
    match dictGet prevResults s, dictGet newResults s with
    | some p, some n =>
      if 10 ≤ |n.overall_score - p.overall_score| then
        some ⟨s, p.overall_score, n.overall_score⟩
      else none
    | _, _ => none)

/-- The `dropped_out` list of `detect_changes` (lines 448-451): symbols of
the previous run absent from the new run. -/
def droppedOut (newResults prevResults : List RankedEntry) : List RankedEntry :=
  (dictKeys prevResults).filterMap (fun s =>
    match dictGet newResults s with
    | some _ => none
    | none => dictGet prevResults s)

/-- The descending-score order used by the batch ranker's sort. -/
def scoreGe (a b : RankedEntry) : Prop := b.overall_score ≤ a.overall_score

/-- Concrete series exercising the relative-strength gate: 150 sessions of
constant price 1 on dates 0..149, so the overlap with itself is 150
sessions. -/
def c1series : Series := (List.range 150).map (fun i => (i, (1 : ℚ)))

/-- Concrete series exercising beta: 31 sessions on dates 0..30 with prices
alternating 1, 2, giving 30 overlapping daily returns of nonzero variance. -/
def c5prices : Series :=
  (List.range 31).map (fun i => (i, if i % 2 = 0 then (1 : ℚ) else 2))

/-- Concrete close series exercising the strength ratio: 21 strictly
decreasing closes, so all 20 trailing returns are negative. -/
def c6closes : List ℚ :=
  [21, 20, 19, 18, 17, 16, 15, 14, 13, 12, 11, 10, 9, 8, 7, 6, 5, 4, 3, 2, 1]

/-- What claim C2 asserts of the caution analysis of a basket: the analysis
succeeds, its score counts the true warning flags among the four signals,
hence stays at most 4, and the `high_caution` threshold of 5 is never
reached. -/
def CautionSpecAt (basket : List PriceData) : Prop :=
  ∃ o, analyzeCautionCriteria basket = some o ∧
    o.caution_score =
      [warningFlag o.laggard_surge, o.high_pbr, o.leverage_risk,
        o.market_heat].count true ∧
    o.caution_score ≤ 4 ∧
    (o.high_caution = true ↔ 5 ≤ o.caution_score) ∧
    o.high_caution = false

/-- What the amended claim C6 asserts of the strength ratio at a close
series: the ratio is infinite (`none`) exactly when no trailing-20 return is
negative, and any finite value is non-negative (it is 0 when the window has
no positive return, so it need not be positive). -/
def StrengthSpecAt (close : List ℚ) : Prop :=
  (strengthRatioQ close = none ↔ ∀ r ∈ recentReturns20 close, 0 ≤ r) ∧
  ∀ v, strengthRatioQ close = some v → 0 ≤ v

/-- What claim C7 asserts of the MACD analysis at a monthly close series
with at least 35 bars: the analysis succeeds, `sell_preparation_needed`
equals the reversal flag, and the flag holds exactly when the last two
histogram values show a positive-to-negative flip or a deepening negative
run. -/
def MacdSpecAt (close : List ℚ) : Prop :=
  ∃ r mline sline hist,
    macdManual close = some (mline, sline, hist) ∧
    analyzeMacd close = some r ∧
    3 ≤ hist.length ∧
    r.sell_preparation_needed = r.downward_reversal_signal ∧
    (r.downward_reversal_signal = true ↔
      (0 < (hist.get? (hist.length - 2)).getD 0 ∧
        (hist.get? (hist.length - 1)).getD 0 < 0) ∨
      ((hist.get? (hist.length - 1)).getD 0 <
          (hist.get? (hist.length - 2)).getD 0 ∧
        (hist.get? (hist.length - 2)).getD 0 < 0))

/-- The value the amended claim C5 gives beta when it is defined: the ddof=1
covariance over the ddof=0 variance, which is n/(n-1) times the
same-definition ratio. -/
def BetaValueSpec (stock market : Series) : Prop :=
  calcBeta stock market =
    some (covSample (betaStockAligned stock market)
        (betaMarketAligned stock market) /
      varPop (betaMarketAligned stock market)) ∧
  covSample (betaStockAligned stock market) (betaMarketAligned stock market) =
    (((betaStockAligned stock market).length : ℚ) /
        (((betaStockAligned stock market).length : ℚ) - 1)) *
      covPop (betaStockAligned stock market) (betaMarketAligned stock market)

/-! ## Helper lemmas -/

theorem length_reindex (s : Series) (ds : List Nat) :
    (reindex s ds).length = ds.length := by
  simp [reindex]

theorem ewmAdjustGo_length (a : ℚ) (xs : List ℚ) :
    ∀ num den : ℚ, (ewmAdjustGo a num den xs).length = xs.length := by
  induction xs with
  | nil => intro num den; rfl
  | cons x rest ih => intro num den; simp [ewmAdjustGo, ih]

theorem emaSpan_length (span : Nat) (xs : List ℚ) :
    (emaSpan span xs).length = xs.length := by
  unfold emaSpan ewmAdjust
  exact ewmAdjustGo_length _ _ _ _

theorem drop_get? (l : List ℚ) : ∀ m i : Nat, (l.drop m).get? i = l.get? (m + i) := by
  induction l with
  | nil => intro m i; simp
  | cons x xs ih =>
    intro m i
    cases m with
    | zero => simp
    | succ k =>
      have h1 : (x :: xs).drop (k + 1) = xs.drop k := rfl
      have h2 : k + 1 + i = (k + i) + 1 := by omega
      rw [h1, ih k i, h2]
      rfl

theorem recommendation_confidence_eq (l c : Nat) :
    (generateRecommendation l c).confidence = calculateConfidence l c := by
  unfold generateRecommendation
  split_ifs <;> rfl

theorem canslim_C_cases (cr : Criteria) :
    (calculateCanslimScores cr).C = 0 ∨ (calculateCanslimScores cr).C = 1 := by
  rcases hh : cr.high52 with _ | b
  · simp [calculateCanslimScores, hh]
  · cases b <;> simp [calculateCanslimScores, hh]

theorem canslim_A_cases (cr : Criteria) :
    (calculateCanslimScores cr).A = 0 ∨ (calculateCanslimScores cr).A = 1 := by
  rcases hm : cr.marketPerf with _ | r
  · simp [calculateCanslimScores, hm]
  · rcases r with _ | q
    · simp [calculateCanslimScores, hm]
    · by_cases hq : (0 : ℚ) < q <;> simp [calculateCanslimScores, hm, hq]

theorem canslim_S_cases (cr : Criteria) :
    (calculateCanslimScores cr).S = 0 ∨ (calculateCanslimScores cr).S = 1 := by
  rcases hm : cr.movingAvg with _ | ⟨a, t⟩
  · simp [calculateCanslimScores, hm]
  · cases a <;> cases t <;> simp [calculateCanslimScores, hm]

theorem canslim_L_cases (cr : Criteria) :
    (calculateCanslimScores cr).L = 0 ∨ (calculateCanslimScores cr).L = 1 := by
  rcases hm : cr.marketPerf with _ | r
  · simp [calculateCanslimScores, hm]
  · rcases r with _ | q
    · simp [calculateCanslimScores, hm]
    · by_cases hq : (20 : ℚ) < q <;> simp [calculateCanslimScores, hm, hq]

theorem canslim_I_cases (cr : Criteria) :
    (calculateCanslimScores cr).I = 0 ∨ (calculateCanslimScores cr).I = 1 := by
  rcases hv : cr.volatility with _ | v
  · simp [calculateCanslimScores, hv]
  · rcases v with _ | w
    · simp [calculateCanslimScores, hv]
    · rcases w with _ | q
      · simp [calculateCanslimScores, hv]
      · by_cases hq : (12 : ℚ) / 10 ≤ q <;> simp [calculateCanslimScores, hv, hq]

theorem canslim_M_cases (cr : Criteria) :
    (calculateCanslimScores cr).M = 0 ∨ (calculateCanslimScores cr).M = 1 := by
  rcases hm : cr.macd with _ | v
  · simp [calculateCanslimScores, hm]
  · rcases v with _ | b
    · simp [calculateCanslimScores, hm]
    · cases b <;> simp [calculateCanslimScores, hm]

theorem zero_one_bounds {x : ℚ} (h : x = 0 ∨ x = 1) : 0 ≤ x ∧ x ≤ 1 := by
  rcases h with h | h <;> rw [h] <;> norm_num

theorem mem_dictKeys_aux (l : List RankedEntry) :
    ∀ (ks : List String) (s : String),
      s ∈ l.foldl
        (fun ks e => if ks.contains e.symbol then ks else ks ++ [e.symbol]) ks →
      s ∈ ks ∨ ∃ e, e ∈ l ∧ e.symbol = s := by
  induction l with
  | nil => intro ks s h; exact Or.inl h
  | cons e rest ih =>
    intro ks s h
    simp only [List.foldl_cons] at h
    rcases ih _ s h with hk | ⟨e2, he2, hs⟩
    · by_cases hc : ks.contains e.symbol
      · rw [if_pos hc] at hk
        exact Or.inl hk
      · rw [if_neg hc] at hk
        rcases List.mem_append.mp hk with hk1 | hk2
        · exact Or.inl hk1
        · refine Or.inr ⟨e, List.mem_cons_self _ _, ?_⟩
          rw [List.mem_singleton] at hk2
          exact hk2.symm
    · exact Or.inr ⟨e2, List.mem_cons_of_mem _ he2, hs⟩

theorem exists_of_mem_dictKeys {l : List RankedEntry} {s : String}
    (h : s ∈ dictKeys l) : ∃ e, e ∈ l ∧ e.symbol = s := by
  rcases mem_dictKeys_aux l [] s h with hk | he
  · exact absurd hk (List.not_mem_nil s)
  · exact he

theorem dictGet_isSome_of_mem {l : List RankedEntry} {s : String}
    (h : s ∈ dictKeys l) : (dictGet l s).isSome = true := by
  obtain ⟨e, hel, hes⟩ := exists_of_mem_dictKeys h
  have hmem : e ∈ l.filter (fun e => e.symbol == s) :=
    List.mem_filter.mpr ⟨hel, by simp [hes]⟩
  have hne : l.filter (fun e => e.symbol == s) ≠ [] := List.ne_nil_of_mem hmem
  simpa [dictGet] using List.getLast?_isSome.mpr hne

/-! ## Claim C3 -/

/-- C3: the recommendation action is decided by the first matching rule of
the cascade (caution at least 5 gives the avoid action, then leadership at
least 5 with caution at least 3 gives a cautious buy, then leadership at
least 5 a strong buy, then leadership at least 3 a conditional buy, else
hold off), confidence is the 0..100 clamp of leadership*15 - caution*10, and
in particular (6, 0) gives the strong-buy action with confidence 90 and
(0, 5) gives the avoid action. -/
theorem C3_recommendation_cascade :
    (∀ l c : Nat,
      (generateRecommendation l c).action =
        (if 5 ≤ c then "매우 조심"
          else if 5 ≤ l ∧ 3 ≤ c then "조심스런 매수"
          else if 5 ≤ l then "적극 매수"
          else if 3 ≤ l then "조건부 매수"
          else "매수 보류") ∧
      (generateRecommendation l c).confidence =
        max 0 (min 100 ((l : ℤ) * 15 - (c : ℤ) * 10))) ∧
    (generateRecommendation 6 0).action = "적극 매수" ∧
    (generateRecommendation 6 0).confidence = 90 ∧
    (generateRecommendation 0 5).action = "매우 조심" := by
  refine ⟨fun l c => ⟨?_, (recommendation_confidence_eq l c).trans rfl⟩, rfl, rfl, rfl⟩
  by_cases h5c : 5 ≤ c
  · simp [generateRecommendation, h5c]
  · by_cases h5l : 5 ≤ l
    · by_cases h3c : 3 ≤ c <;> simp [generateRecommendation, h5c, h5l, h3c]
    · by_cases h3l : 3 ≤ l <;> simp [generateRecommendation, h5c, h5l, h3l]

/-! ## Claim C4 -/

/-- C4 counterexample: on a one-session series the source's rolling
52-week-high is NaN (`none`), not the maximum of the available window
(`some 10`), even though `is_near_high` does remain a valid and false
boolean. -/
theorem C4_counterexample :
    (⟨[10], [10]⟩ : PriceData).high.length < 252 ∧
    high_52w ⟨[10], [10]⟩ = none ∧
    availableWindowHigh ⟨[10], [10]⟩ = some 10 ∧
    high_52w ⟨[10], [10]⟩ ≠ availableWindowHigh ⟨[10], [10]⟩ ∧
    is_near_high ⟨[10], [10]⟩ = false := by decide

/-- C4 amended: on a series with fewer than 252 sessions the 52-week high is
unavailable (NaN) rather than the maximum of the available window, and
`is_near_high` fails closed to `false` (no crash). -/
theorem C4_short_series_amended (d : PriceData) (h : d.high.length < 252) :
    high_52w d = none ∧ is_near_high d = false := by
  have h1 : high_52w d = none := by
    unfold high_52w rollingMaxLast
    rw [if_neg (by omega)]
  refine ⟨h1, ?_⟩
  unfold is_near_high
  rw [h1]

/-- C4 witness: the amended statement applied to a concrete one-session
series. -/
theorem C4_witness :
    (⟨[(1 : ℚ)], [(1 : ℚ)]⟩ : PriceData).high.length < 252 ∧
    (high_52w ⟨[(1 : ℚ)], [(1 : ℚ)]⟩ = none ∧
      is_near_high ⟨[(1 : ℚ)], [(1 : ℚ)]⟩ = false) :=
  ⟨by decide, C4_short_series_amended _ (by decide)⟩

/-! ## Claim C9 -/

/-- C9: diffing a snapshot against an identical copy of itself reports no
new entries, no score changes and no drop-outs. -/
theorem C9_identity_diff (l : List RankedEntry) :
    newEntries l l = [] ∧ scoreChanges l l = [] ∧ droppedOut l l = [] := by
  refine ⟨?_, ?_, ?_⟩
  · rw [newEntries, List.filterMap_eq_nil_iff]
    intro s hs
    obtain ⟨v, hv⟩ := Option.isSome_iff_exists.mp (dictGet_isSome_of_mem hs)
    simp [hv]
  · rw [scoreChanges, List.filterMap_eq_nil_iff]
    intro s hs
    obtain ⟨v, hv⟩ := Option.isSome_iff_exists.mp (dictGet_isSome_of_mem hs)
    simp [hv]
  · rw [droppedOut, List.filterMap_eq_nil_iff]
    intro s hs
    obtain ⟨v, hv⟩ := Option.isSome_iff_exists.mp (dictGet_isSome_of_mem hs)
    simp [hv]

/-! ## Claim C10 -/

/-- C10: each of the six data-driven CANSLIM component scores is 0 or 1 and
N is the constant 1/2, so the total lies in [1/2, 13/2] and the overall
percentage lies in [50/7, 650/7]; in particular the percentage is never 0
and never 100. -/
theorem C10_score_bounds (cr : Criteria) :
    ((calculateCanslimScores cr).C = 0 ∨ (calculateCanslimScores cr).C = 1) ∧
    ((calculateCanslimScores cr).A = 0 ∨ (calculateCanslimScores cr).A = 1) ∧
    ((calculateCanslimScores cr).S = 0 ∨ (calculateCanslimScores cr).S = 1) ∧
    ((calculateCanslimScores cr).L = 0 ∨ (calculateCanslimScores cr).L = 1) ∧
    ((calculateCanslimScores cr).I = 0 ∨ (calculateCanslimScores cr).I = 1) ∧
    ((calculateCanslimScores cr).M = 0 ∨ (calculateCanslimScores cr).M = 1) ∧
    (calculateCanslimScores cr).N = 1 / 2 ∧
    (1 / 2 ≤ canslimTotal cr ∧ canslimTotal cr ≤ 13 / 2) ∧
    (50 / 7 ≤ overallScore cr ∧ overallScore cr ≤ 650 / 7) ∧
    overallScore cr ≠ 0 ∧ overallScore cr ≠ 100 := by
  obtain ⟨hC0, hC1⟩ := zero_one_bounds (canslim_C_cases cr)
  obtain ⟨hA0, hA1⟩ := zero_one_bounds (canslim_A_cases cr)
  obtain ⟨hS0, hS1⟩ := zero_one_bounds (canslim_S_cases cr)
  obtain ⟨hL0, hL1⟩ := zero_one_bounds (canslim_L_cases cr)
  obtain ⟨hI0, hI1⟩ := zero_one_bounds (canslim_I_cases cr)
  obtain ⟨hM0, hM1⟩ := zero_one_bounds (canslim_M_cases cr)
  have hN : (calculateCanslimScores cr).N = 1 / 2 := rfl
  have htot : canslimTotal cr =
      (calculateCanslimScores cr).C + (calculateCanslimScores cr).A +
        (calculateCanslimScores cr).N + (calculateCanslimScores cr).S +
        (calculateCanslimScores cr).L + (calculateCanslimScores cr).I +
        (calculateCanslimScores cr).M := rfl
  have ht1 : 1 / 2 ≤ canslimTotal cr := by rw [htot, hN]; linarith
  have ht2 : canslimTotal cr ≤ 13 / 2 := by rw [htot, hN]; linarith
  have hov : overallScore cr = canslimTotal cr / 7 * 100 := rfl
  have ho1 : 50 / 7 ≤ overallScore cr := by rw [hov]; linarith
  have ho2 : overallScore cr ≤ 650 / 7 := by rw [hov]; linarith
  refine ⟨canslim_C_cases cr, canslim_A_cases cr, canslim_S_cases cr,
    canslim_L_cases cr, canslim_I_cases cr, canslim_M_cases cr, hN,
    ⟨ht1, ht2⟩, ⟨ho1, ho2⟩, ?_, ?_⟩
  · intro hz
    rw [hz] at ho1
    norm_num at ho1
  · intro hh
    rw [hh] at ho2
    norm_num at ho2

/-! ## Claim C1 -/

set_option maxRecDepth 40000 in
/-- C1 counterexample: a series with a 150-session overlap with the
benchmark (so at least 63 and at least 126 sessions) still gets NaN for both
the 3-month and the 6-month relative strength, because the source gates both
horizons on 180 common sessions before the per-horizon checks. -/
theorem C1_counterexample :
    63 ≤ (commonDates c1series c1series).length ∧
    126 ≤ (commonDates c1series c1series).length ∧
    (relativeStrength c1series c1series).1 = none ∧
    (relativeStrength c1series c1series).2 = none := by decide

/-- C1 amended: the 3-month and the 6-month relative strengths are each NaN
exactly when the overlap with the benchmark has fewer than 180 sessions;
with at least 180 overlapping sessions the per-horizon 63 and 126 session
checks are always satisfied, so the two horizons are never decided
independently. -/
theorem C1_relative_strength_amended (stock market : Series) :
    ((relativeStrength stock market).1 = none ↔
      (commonDates stock market).length < 180) ∧
    ((relativeStrength stock market).2 = none ↔
      (commonDates stock market).length < 180) := by
  by_cases h : (commonDates stock market).length < 180
  · simp [relativeStrength, h]
  · have h63 : 63 ≤ (reindex stock (commonDates stock market)).length := by
      rw [length_reindex]; omega
    have h126 : 126 ≤ (reindex stock (commonDates stock market)).length := by
      rw [length_reindex]; omega
    simp [relativeStrength, h, h63, h126]

/-! ## Claim C2 -/

theorem cautionScore_eq_count (lag : Option Bool) (pbr lev heat : Bool) :
    calculateCautionScore lag pbr lev heat =
      [warningFlag lag, pbr, lev, heat].count true := by
  rcases lag with _ | b
  · cases pbr <;> cases lev <;> cases heat <;> rfl
  · cases b <;> cases pbr <;> cases lev <;> cases heat <;> rfl

theorem cautionScore_le_four (lag : Option Bool) (pbr lev heat : Bool) :
    calculateCautionScore lag pbr lev heat ≤ 4 := by
  rcases lag with _ | b
  · cases pbr <;> cases lev <;> cases heat <;> decide
  · cases b <;> cases pbr <;> cases lev <;> cases heat <;> decide

/-- C2: on any nonempty basket with valid data the caution analysis
succeeds, the caution score equals the number of true warning flags among
the four signals (an error laggard signal contributing no flag), hence lies
in 0..4, and `high_caution` holds exactly when the score reaches 5 — which
is therefore never the case. -/
theorem C2_caution_score (basket : List PriceData) (h : basket ≠ []) :
    CautionSpecAt basket := by
  have hcond : ¬(basket.isEmpty = true) := by
    cases basket with
    | nil => exact absurd rfl h
    | cons a t => simp [List.isEmpty]
  have heq : analyzeCautionCriteria basket =
      some ⟨laggardWarning basket, pbrWarning basket, leverageWarning basket,
        marketHeatWarning basket,
        calculateCautionScore (laggardWarning basket) (pbrWarning basket)
          (leverageWarning basket) (marketHeatWarning basket),
        decide (5 ≤ calculateCautionScore (laggardWarning basket)
          (pbrWarning basket) (leverageWarning basket)
          (marketHeatWarning basket))⟩ := by
    unfold analyzeCautionCriteria
    rw [if_neg hcond]
  have hle := cautionScore_le_four (laggardWarning basket) (pbrWarning basket)
    (leverageWarning basket) (marketHeatWarning basket)
  refine ⟨_, heq, ?_, ?_, ?_, ?_⟩
  · exact cautionScore_eq_count _ _ _ _
  · exact hle
  · simp
  · simp only [decide_eq_false_iff_not]
    omega

/-- C2 witness: the statement applied to a concrete one-symbol basket. -/
theorem C2_witness :
    ([(⟨[1], [1]⟩ : PriceData)] ≠ []) ∧ CautionSpecAt [⟨[1], [1]⟩] :=
  ⟨by decide, C2_caution_score _ (by decide)⟩

/-! ## Claim C6 -/

theorem sum_neg_of_all_neg :
    ∀ {l : List ℚ}, l ≠ [] → (∀ r ∈ l, r < 0) → l.sum < 0 := by
  intro l
  induction l with
  | nil => intro h; exact absurd rfl h
  | cons x xs ih =>
    intro _ hall
    have hx0 := hall x (List.mem_cons_self _ _)
    by_cases hx : xs = []
    · subst hx; simpa using hx0
    · have hs := ih hx (fun r hr => hall r (List.mem_cons_of_mem _ hr))
      rw [List.sum_cons]
      linarith

theorem meanQ_neg_of_all_neg {l : List ℚ} (hne : l ≠ [])
    (hall : ∀ r ∈ l, r < 0) : meanQ l < 0 := by
  have hs := sum_neg_of_all_neg hne hall
  have hl : 0 < (l.length : ℚ) := by
    have h0 : 0 < l.length := List.length_pos.mpr hne
    exact_mod_cast h0
  exact div_neg_of_neg_of_pos hs hl

theorem avg_down_eq_zero_iff (close : List ℚ) :
    avg_down close = 0 ↔ ∀ r ∈ recentReturns20 close, 0 ≤ r := by
  unfold avg_down
  by_cases hne :
      ((recentReturns20 close).filter (fun r => decide (r < 0))).isEmpty
  · rw [if_pos hne]
    have hnil : (recentReturns20 close).filter (fun r => decide (r < 0)) = [] := by
      simpa [List.isEmpty_iff] using hne
    constructor
    · intro _ r hr
      by_contra hlt
      push_neg at hlt
      have : r ∈ (recentReturns20 close).filter (fun r => decide (r < 0)) :=
        List.mem_filter.mpr ⟨hr, by simpa using hlt⟩
      rw [hnil] at this
      exact absurd this (List.not_mem_nil r)
    · intro _; rfl
  · rw [if_neg hne]
    have hnnil : (recentReturns20 close).filter (fun r => decide (r < 0)) ≠ [] := by
      intro hc
      rw [hc] at hne
      exact hne rfl
    have hallneg :
        ∀ r ∈ (recentReturns20 close).filter (fun r => decide (r < 0)), r < 0 :=
      fun r hr => by simpa using (List.mem_filter.mp hr).2
    have hm := meanQ_neg_of_all_neg hnnil hallneg
    constructor
    · intro h0
      rw [h0] at hm
      exact absurd hm (lt_irrefl 0)
    · intro hall
      exfalso
      obtain ⟨r, hr⟩ := List.exists_mem_of_ne_nil _ hnnil
      have h1 := (List.mem_filter.mp hr).1
      have h2 : r < 0 := by simpa using (List.mem_filter.mp hr).2
      exact absurd (hall r h1) (not_le.mpr h2)

theorem roundHalfEven_nonneg {x : ℚ} (hx : 0 ≤ x) : 0 ≤ roundHalfEven x := by
  unfold roundHalfEven
  have hf : (0 : ℤ) ≤ ⌊x⌋ := Int.floor_nonneg.mpr hx
  split_ifs <;> omega

theorem round2_nonneg {x : ℚ} (hx : 0 ≤ x) : 0 ≤ round2 x := by
  unfold round2
  have h1 : 0 ≤ roundHalfEven (x * 100) :=
    roundHalfEven_nonneg (by positivity)
  exact div_nonneg (by exact_mod_cast h1) (by norm_num)

/-- C6 counterexample: a 21-session strictly decreasing close series has a
negative return in the trailing-20 window, so the claim demands a finite
positive strength ratio, but the source computes exactly 0 (there are no up
days, so `avg_up` is 0). -/
theorem C6_counterexample :
    21 ≤ c6closes.length ∧
    ((recentReturns20 c6closes).all (fun r => decide (0 ≤ r))) = false ∧
    strengthRatioQ c6closes = some 0 := by with_unfolding_all decide

/-- C6 amended: with at least 21 sessions of closes, the strength ratio is
infinite (`none`) exactly when every trailing-20 return is non-negative, and
otherwise it is a finite non-negative number — zero is possible (when the
window has no positive return), so the value need not be positive. -/
theorem C6_strength_amended (close : List ℚ) (h : 21 ≤ close.length) :
    StrengthSpecAt close := by
  constructor
  · rw [← avg_down_eq_zero_iff]
    unfold strengthRatioQ
    by_cases hd : avg_down close = 0
    · simp [hd]
    · simp [hd]
  · intro v hv
    unfold strengthRatioQ at hv
    by_cases hd : avg_down close = 0
    · simp [hd] at hv
    · rw [if_pos hd] at hv
      injection hv with h2
      rw [← h2]
      exact round2_nonneg (abs_nonneg _)

/-- C6 witness: the amended statement applied to the concrete decreasing
close series. -/
theorem C6_witness : 21 ≤ c6closes.length ∧ StrengthSpecAt c6closes :=
  ⟨by decide, C6_strength_amended _ (by decide)⟩

/-! ## Claim C5 -/

theorem covSample_eq_scaled (xs ys : List ℚ) (hne : xs ≠ []) :
    covSample xs ys =
      ((xs.length : ℚ) / ((xs.length : ℚ) - 1)) * covPop xs ys := by
  have hn : (xs.length : ℚ) ≠ 0 := by
    exact_mod_cast Nat.cast_ne_zero.mpr (fun hc => hne (List.length_eq_zero.mp hc))
  unfold covSample covPop
  by_cases h1 : (xs.length : ℚ) - 1 = 0
  · rw [h1]
    simp
  · field_simp
    ring

set_option maxRecDepth 100000 in
/-- C5 counterexample: on a pair of identical 31-session series with prices
alternating 1 and 2 (30 overlapping daily returns), the source's beta is
30/29 — the ddof=1 covariance divided by the ddof=0 variance — while a beta
whose covariance and variance are taken under the same definition would be
exactly 1. -/
theorem C5_counterexample :
    calcBeta c5prices c5prices = some (30 / 29) ∧
    betaSameDdof c5prices c5prices = some 1 ∧
    ((30 : ℚ) / 29) ≠ 1 := by with_unfolding_all decide

/-- C5 amended: beta is NaN exactly when fewer than 30 overlapping return
sessions exist or the market variance is zero; otherwise it equals the
sample (ddof=1) covariance divided by the population (ddof=0) variance,
which is n/(n-1) times the ratio taken under a common definition. -/
theorem C5_beta_amended (stock market : Series) :
    (calcBeta stock market = none ↔
      ((betaCommonDates stock market).length < 30 ∨
        varPop (betaMarketAligned stock market) = 0)) ∧
    (30 ≤ (betaCommonDates stock market).length →
      varPop (betaMarketAligned stock market) ≠ 0 →
      BetaValueSpec stock market) := by
  constructor
  · by_cases h30 : (betaCommonDates stock market).length < 30
    · simp [calcBeta, h30]
    · by_cases hv : varPop (betaMarketAligned stock market) = 0
      · simp [calcBeta, h30, hv]
      · simp [calcBeta, h30, hv]
  · intro h30 hv
    constructor
    · simp [calcBeta, hv]
      omega
    · apply covSample_eq_scaled
      have hlen : (betaStockAligned stock market).length =
          (betaCommonDates stock market).length := length_reindex _ _
      intro hc
      rw [hc] at hlen
      simp at hlen
      omega

set_option maxRecDepth 100000 in
/-- C5 witness: the amended statement applied to the concrete alternating
series. -/
theorem C5_witness :
    30 ≤ (betaCommonDates c5prices c5prices).length ∧
    varPop (betaMarketAligned c5prices c5prices) ≠ 0 ∧
    BetaValueSpec c5prices c5prices :=
  ⟨by with_unfolding_all decide, by with_unfolding_all decide,
    (C5_beta_amended c5prices c5prices).2 (by with_unfolding_all decide)
      (by with_unfolding_all decide)⟩

/-! ## Claim C7 -/

theorem macdManual_eq (close : List ℚ) (h : 35 ≤ close.length) :
    macdManual close =
      some (List.zipWith (· - ·) (emaSpan 12 close) (emaSpan 26 close),
        emaSpan 9 (List.zipWith (· - ·) (emaSpan 12 close) (emaSpan 26 close)),
        List.zipWith (· - ·)
          (List.zipWith (· - ·) (emaSpan 12 close) (emaSpan 26 close))
          (emaSpan 9 (List.zipWith (· - ·) (emaSpan 12 close)
            (emaSpan 26 close)))) := by
  unfold macdManual
  rw [if_neg (by omega)]

/-- C7: whenever the monthly close series has at least 35 bars, the MACD
analysis succeeds, `sell_preparation_needed` equals the downward-reversal
flag, and the flag holds exactly when, writing h1 and h2 for the second-last
and last histogram values, either h1 is positive and h2 negative (sign flip)
or h2 < h1 < 0 (deepening negative run). -/
theorem C7_macd_reversal (close : List ℚ) (h : 35 ≤ close.length) :
    MacdSpecAt close := by
  have hmacd := macdManual_eq close h
  set mline := List.zipWith (· - ·) (emaSpan 12 close) (emaSpan 26 close)
    with hm
  set sline := emaSpan 9 mline with hs
  set hist := List.zipWith (· - ·) mline sline with hh
  have hml : mline.length = close.length := by
    rw [hm, List.length_zipWith, emaSpan_length, emaSpan_length, Nat.min_self]
  have hsl : sline.length = close.length := by
    rw [hs, emaSpan_length, hml]
  have hhl : hist.length = close.length := by
    rw [hh, List.length_zipWith, hml, hsl, Nat.min_self]
  have h3 : 3 ≤ hist.length := by omega
  have hana : analyzeMacd close =
      some ⟨downwardReversal hist, downwardReversal hist⟩ := by
    unfold analyzeMacd
    rw [if_neg (by omega), hmacd]
  refine ⟨⟨downwardReversal hist, downwardReversal hist⟩, mline, sline, hist,
    hmacd, hana, h3, rfl, ?_⟩
  show downwardReversal hist = true ↔ _
  unfold downwardReversal
  rw [if_pos h3]
  have hrl : (lastN 3 hist).length = 3 := by
    unfold lastN
    rw [List.length_drop]
    omega
  rw [if_pos (show 2 ≤ (lastN 3 hist).length by omega)]
  have ha2 : atFromEnd (lastN 3 hist) 2 = (hist.get? (hist.length - 2)).getD 0 := by
    unfold atFromEnd
    rw [hrl]
    unfold lastN
    rw [drop_get?]
    have harith : hist.length - 3 + (3 - 2) = hist.length - 2 := by omega
    rw [harith]
  have ha1 : atFromEnd (lastN 3 hist) 1 = (hist.get? (hist.length - 1)).getD 0 := by
    unfold atFromEnd
    rw [hrl]
    unfold lastN
    rw [drop_get?]
    have harith : hist.length - 3 + (3 - 1) = hist.length - 1 := by omega
    rw [harith]
  rw [ha2, ha1]
  simp [Bool.or_eq_true, decide_eq_true_eq]

set_option maxRecDepth 100000 in
/-- C7 witness: the statement applied to a constant 35-bar monthly close
series (histogram identically zero, so no reversal is flagged). -/
theorem C7_witness :
    35 ≤ (List.replicate 35 (1 : ℚ)).length ∧ MacdSpecAt (List.replicate 35 1) :=
  ⟨by decide, C7_macd_reversal _ (by decide)⟩

/-! ## Claim C8 -/

theorem insertByScore_perm (e : RankedEntry) (l : List RankedEntry) :
    List.Perm (insertByScore e l) (e :: l) := by
  induction l with
  | nil => exact List.Perm.refl _
  | cons x xs ih =>
    unfold insertByScore
    by_cases hc : x.overall_score ≤ e.overall_score
    · rw [if_pos hc]
    · rw [if_neg hc]
      exact (ih.cons x).trans (List.Perm.swap e x xs)

theorem sortByScoreDesc_perm (l : List RankedEntry) :
    List.Perm (sortByScoreDesc l) l := by
  induction l with
  | nil => exact List.Perm.refl _
  | cons x xs ih =>
    exact (insertByScore_perm x (sortByScoreDesc xs)).trans (ih.cons x)

theorem sorted_insertByScore {l : List RankedEntry} (e : RankedEntry)
    (h : List.Sorted scoreGe l) : List.Sorted scoreGe (insertByScore e l) := by
  induction l with
  | nil => simp [insertByScore, scoreGe]
  | cons x xs ih =>
    rw [List.sorted_cons] at h
    obtain ⟨hx, hxs⟩ := h
    unfold insertByScore
    by_cases hc : x.overall_score ≤ e.overall_score
    · rw [if_pos hc, List.sorted_cons]
      constructor
      · intro b hb
        rcases List.mem_cons.mp hb with hbx | hbxs
        · rw [hbx]
          exact hc
        · exact le_trans (hx b hbxs) hc
      · rw [List.sorted_cons]
        exact ⟨hx, hxs⟩
    · rw [if_neg hc, List.sorted_cons]
      constructor
      · intro b hb
        have hb2 : b ∈ e :: xs := (insertByScore_perm e xs).mem_iff.mp hb
        rcases List.mem_cons.mp hb2 with hbe | hbxs
        · rw [hbe]
          exact le_of_not_le hc
        · exact hx b hbxs
      · exact ih hxs

theorem sortByScoreDesc_sorted (l : List RankedEntry) :
    List.Sorted scoreGe (sortByScoreDesc l) := by
  induction l with
  | nil => simp [sortByScoreDesc]
  | cons x xs ih => exact sorted_insertByScore x ih

theorem filter_insertByScore (e : RankedEntry) (l : List RankedEntry) (s : ℚ) :
    (insertByScore e l).filter (fun x => decide (x.overall_score = s)) =
      if e.overall_score = s then
        e :: l.filter (fun x => decide (x.overall_score = s))
      else l.filter (fun x => decide (x.overall_score = s)) := by
  induction l with
  | nil =>
    by_cases he : e.overall_score = s <;> simp [insertByScore, List.filter, he]
  | cons x xs ih =>
    unfold insertByScore
    by_cases hc : x.overall_score ≤ e.overall_score
    · rw [if_pos hc]
      by_cases he : e.overall_score = s <;> simp [List.filter_cons, he]
    · rw [if_neg hc]
      by_cases he : e.overall_score = s
      · by_cases hx : x.overall_score = s
        · exact absurd (le_of_eq (hx.trans he.symm)) hc
        · simp [List.filter_cons, hx, ih, he]
      · by_cases hx : x.overall_score = s <;> simp [List.filter_cons, hx, ih, he]

theorem filter_sortByScoreDesc (l : List RankedEntry) (s : ℚ) :
    (sortByScoreDesc l).filter (fun x => decide (x.overall_score = s)) =
      l.filter (fun x => decide (x.overall_score = s)) := by
  induction l with
  | nil => rfl
  | cons x xs ih =>
    show (insertByScore x (sortByScoreDesc xs)).filter _ = _
    rw [filter_insertByScore]
    by_cases hx : x.overall_score = s <;> simp [List.filter_cons, hx, ih]

/-- C8 counterexample: two symbols with equal scores submitted as [A, B] but
completed by the workers as [B, A] are emitted as [B, A] — the stable sort
breaks the tie by worker-completion order, not by the original basket
iteration order, which would give [A, B]. -/
theorem C8_counterexample :
    List.Perm ([⟨"B", 50⟩, ⟨"A", 50⟩] : List RankedEntry)
      [⟨"A", 50⟩, ⟨"B", 50⟩] ∧
    runScreening [⟨"B", 50⟩, ⟨"A", 50⟩] = [⟨"B", 50⟩, ⟨"A", 50⟩] ∧
    sortByScoreDesc
        (([⟨"A", 50⟩, ⟨"B", 50⟩] : List RankedEntry).filter
          (fun e => decide (30 < e.overall_score))) =
      [⟨"A", 50⟩, ⟨"B", 50⟩] ∧
    runScreening [⟨"B", 50⟩, ⟨"A", 50⟩] ≠
      sortByScoreDesc
        (([⟨"A", 50⟩, ⟨"B", 50⟩] : List RankedEntry).filter
          (fun e => decide (30 < e.overall_score))) := by
  refine ⟨List.Perm.swap (⟨"A", 50⟩ : RankedEntry) (⟨"B", 50⟩ : RankedEntry) [],
    by decide, by decide, by decide⟩

/-- C8 amended: a completed result enters the final list exactly when its
overall score strictly exceeds 30; the final list is sorted by descending
overall score; and ties are broken by the order in which the parallel
workers complete (the sort is stable with respect to the completion order,
which is not guaranteed to be the original basket iteration order). -/
theorem C8_screening_amended (completed : List RankedEntry) :
    (∀ e, e ∈ runScreening completed ↔ e ∈ completed ∧ 30 < e.overall_score) ∧
    List.Sorted scoreGe (runScreening completed) ∧
    (∀ s : ℚ,
      (runScreening completed).filter (fun x => decide (x.overall_score = s)) =
        (analyzeStockBatch completed).filter
          (fun x => decide (x.overall_score = s))) := by
  refine ⟨?_, sortByScoreDesc_sorted _, fun s => filter_sortByScoreDesc _ s⟩
  intro e
  unfold runScreening
  rw [(sortByScoreDesc_perm _).mem_iff]
  unfold analyzeStockBatch
  rw [List.mem_filter]
  simp

end Canslim
